import Mathlib

/-
Verification development for the streaming session state manager of the
t-one-rest-api repository.

Embedded source files:
  * src/asr_api/audio_processor.py   (AudioProcessor.transcribe_streaming)
  * src/asr_api/storage/memory_storage.py  (MemoryStorage)
  * src/asr_api/storage/redis_storage.py   (RedisStorage)
  * src/asr_api/services/streaming_service.py (StreamingService)
  * src/asr_api/routers/streaming.py  (finalize_streaming endpoint)

Python dictionaries are modelled as association lists (`List (κ × α)`);
`datetime.now()` is modelled by passing an explicit natural-number clock
(seconds) into each operation that reads it.  The decoder pipeline and the
audio file decoding are external collaborators and are passed in as
function parameters; a decoder call that may raise is modelled with
`Except Unit`.
-/

/-- Python `d.get(k)` on a dict modelled as an association list: the value at
the first matching key, if any. -/
def dget {κ α : Type _} [DecidableEq κ] : List (κ × α) → κ → Option α
  | [], _ => none
  | p :: l, k => if p.1 = k then some p.2 else dget l k

/-- Python `del d[k]` / `d.pop(k, None)`: remove every entry with key `k`. -/
def ddel {κ α : Type _} [DecidableEq κ] : List (κ × α) → κ → List (κ × α)
  | [], _ => []
  | p :: l, k => if p.1 = k then ddel l k else p :: ddel l k

/-- Python `d[k] = v`: replace any entry for `k` with a single fresh entry.
Insertion order is not preserved exactly (the fresh entry goes to the back),
which is irrelevant here: no modelled operation depends on dict order. -/
def dset {κ α : Type _} [DecidableEq κ] (l : List (κ × α)) (k : κ) (v : α) :
    List (κ × α) :=
  ddel l k ++ [(k, v)]

@[simp] theorem dget_nil {κ α : Type _} [DecidableEq κ] (k : κ) :
    dget ([] : List (κ × α)) k = none := rfl

@[simp] theorem dget_cons {κ α : Type _} [DecidableEq κ] (p : κ × α)
    (l : List (κ × α)) (k : κ) :
    dget (p :: l) k = if p.1 = k then some p.2 else dget l k := rfl

@[simp] theorem ddel_nil {κ α : Type _} [DecidableEq κ] (k : κ) :
    ddel ([] : List (κ × α)) k = [] := rfl

theorem ddel_cons {κ α : Type _} [DecidableEq κ] (p : κ × α) (l : List (κ × α))
    (k : κ) :
    ddel (p :: l) k = if p.1 = k then ddel l k else p :: ddel l k := rfl

theorem dget_ddel {κ α : Type _} [DecidableEq κ] (l : List (κ × α)) (k k' : κ) :
    dget (ddel l k) k' = if k' = k then none else dget l k' := by
  induction l with
  | nil => simp
  | cons p l ih =>
    rw [ddel_cons]
    by_cases hpk : p.1 = k
    · rw [if_pos hpk, ih]
      by_cases hk : k' = k
      · rw [if_pos hk, if_pos hk]
      · rw [if_neg hk, if_neg hk, dget_cons,
          if_neg (fun h : p.1 = k' => hk (h ▸ hpk))]
    · rw [if_neg hpk, dget_cons, ih]
      by_cases hpk' : p.1 = k'
      · rw [if_pos hpk']
        have hk : ¬k' = k := fun h => hpk (by rw [hpk', h])
        rw [if_neg hk, dget_cons, if_pos hpk']
      · rw [if_neg hpk']
        by_cases hk : k' = k
        · rw [if_pos hk, if_pos hk]
        · rw [if_neg hk, if_neg hk, dget_cons, if_neg hpk']

theorem dget_append_of_none {κ α : Type _} [DecidableEq κ] {l₁ : List (κ × α)}
    (l₂ : List (κ × α)) {k : κ} (h : dget l₁ k = none) :
    dget (l₁ ++ l₂) k = dget l₂ k := by
  induction l₁ with
  | nil => simp
  | cons p l ih =>
    rw [dget_cons] at h
    by_cases hpk : p.1 = k
    · rw [if_pos hpk] at h
      exact absurd h (by simp)
    · rw [if_neg hpk] at h
      rw [List.cons_append, dget_cons, if_neg hpk]
      exact ih h

theorem dget_append_of_some {κ α : Type _} [DecidableEq κ] {l₁ : List (κ × α)}
    (l₂ : List (κ × α)) {k : κ} {v : α} (h : dget l₁ k = some v) :
    dget (l₁ ++ l₂) k = some v := by
  induction l₁ with
  | nil => simp at h
  | cons p l ih =>
    rw [dget_cons] at h
    rw [List.cons_append, dget_cons]
    by_cases hpk : p.1 = k
    · rw [if_pos hpk] at h
      rw [if_pos hpk]
      exact h
    · rw [if_neg hpk] at h
      rw [if_neg hpk]
      exact ih h

theorem dget_dset_self {κ α : Type _} [DecidableEq κ] (l : List (κ × α)) (k : κ)
    (v : α) : dget (dset l k v) k = some v := by
  rw [dset, dget_append_of_none _ (by rw [dget_ddel, if_pos rfl])]
  simp [dget]

theorem dget_dset_ne {κ α : Type _} [DecidableEq κ] (l : List (κ × α)) (k k' : κ)
    (v : α) (h : k' ≠ k) : dget (dset l k v) k' = dget l k' := by
  rw [dset]
  cases hdg : dget l k' with
  | none =>
    rw [dget_append_of_none _ (by rw [dget_ddel, if_neg h]; exact hdg)]
    rw [dget_cons, if_neg (fun hh : k = k' => h hh.symm)]
    rfl
  | some v' =>
    exact dget_append_of_some _ (by rw [dget_ddel, if_neg h]; exact hdg)

theorem mem_of_dget_eq_some {κ α : Type _} [DecidableEq κ] {l : List (κ × α)}
    {k : κ} {v : α} (h : dget l k = some v) : (k, v) ∈ l := by
  induction l with
  | nil => simp at h
  | cons p l ih =>
    rw [dget_cons] at h
    by_cases hpk : p.1 = k
    · rw [if_pos hpk] at h
      obtain ⟨p1, p2⟩ := p
      have h1 : p1 = k := hpk
      have h2 : p2 = v := by injection h
      subst h1
      subst h2
      exact List.mem_cons_self _ _
    · rw [if_neg hpk] at h
      exact List.mem_cons_of_mem _ (ih h)

theorem mem_ddel {κ α : Type _} [DecidableEq κ] {l : List (κ × α)} {k : κ}
    {p : κ × α} (h : p ∈ ddel l k) : p ∈ l ∧ p.1 ≠ k := by
  induction l with
  | nil => simp at h
  | cons q l ih =>
    rw [ddel_cons] at h
    by_cases hqk : q.1 = k
    · rw [if_pos hqk] at h
      exact ⟨List.mem_cons_of_mem _ (ih h).1, (ih h).2⟩
    · rw [if_neg hqk] at h
      rcases List.mem_cons.mp h with h | h
      · exact ⟨h ▸ List.mem_cons_self _ _, h ▸ hqk⟩
      · exact ⟨List.mem_cons_of_mem _ (ih h).1, (ih h).2⟩

theorem mem_dset {κ α : Type _} [DecidableEq κ] {l : List (κ × α)} {k : κ}
    {v : α} {p : κ × α} (h : p ∈ dset l k v) (hk : p.1 = k) : p.2 = v := by
  rcases List.mem_append.mp h with h | h
  · exact absurd hk (mem_ddel h).2
  · simp at h
    rw [h]

/-! ## MemoryStorage (src/asr_api/storage/memory_storage.py)

The stored value type of the Python dict `_states` is `Any`, and `create_state`
stores the Python value `None`; a stored value is therefore modelled as
`Option V` (`none` = Python `None`).  `datetime.now()` is an explicit `now`
argument (seconds); `(now - ts).total_seconds() > timeout` becomes truncated
natural subtraction, which agrees with the Python comparison because a
negative difference and a zero difference both fail `> timeout` for
`timeout ≥ 0`. -/

structure MemoryStorage (V : Type _) where
  states : List (String × Option V)
  timestamps : List (String × Nat)
  timeout_seconds : Nat
  deriving DecidableEq

namespace MemoryStorage

/-- Embeds `MemoryStorage.delete_state` (lines 87-90): `pop` on both dicts. -/
def delete_state {V : Type _} (st : MemoryStorage V) (state_id : String) :
    MemoryStorage V :=
  { st with states := ddel st.states state_id,
            timestamps := ddel st.timestamps state_id }

/-- Embeds the private `MemoryStorage._cleanup_expired` (lines 96-106): collect
the ids whose timestamp difference exceeds the timeout, then delete each. -/
def sweep {V : Type _} (st : MemoryStorage V) (now : Nat) : MemoryStorage V :=
  let expired :=
    (st.timestamps.filter
      (fun p => decide (now - p.2 > st.timeout_seconds))).map Prod.fst
  expired.foldl delete_state st

/-- Embeds `MemoryStorage.create_state` (lines 65-71): cleanup, then store
`None` under a fresh id (the uuid is an explicit argument here). -/
def create_state {V : Type _} (st : MemoryStorage V) (state_id : String)
    (now : Nat) : String × MemoryStorage V :=
  let st1 := sweep st now
  (state_id,
   { st1 with states := dset st1.states state_id none,
              timestamps := dset st1.timestamps state_id now })

/-- Embeds `MemoryStorage.get_state` (lines 73-76): cleanup, then
`self._states.get(state_id)`.  A Python caller cannot distinguish an absent
key from a stored `None`, hence the flattening `Option.join`. -/
def get_state {V : Type _} (st : MemoryStorage V) (state_id : String)
    (now : Nat) : Option V × MemoryStorage V :=
  let st1 := sweep st now
  ((dget st1.states state_id).join, st1)

/-- Embeds `MemoryStorage.update_state` (lines 78-85): `KeyError` (modelled as
`none`) when the id is absent; otherwise replace the payload and refresh the
timestamp when a timestamp entry is present. -/
def update_state {V : Type _} (st : MemoryStorage V) (state_id : String)
    (state : Option V) (now : Nat) : Option (MemoryStorage V) :=
  if (dget st.states state_id).isSome then
    some { st with
           states := dset st.states state_id state,
           timestamps :=
             if (dget st.timestamps state_id).isSome then
               dset st.timestamps state_id now
             else st.timestamps }
  else none

/-- Embeds `MemoryStorage.state_exists` (lines 92-94): a bare key-membership
test on `_states` with no expiry check and no cleanup. -/
def state_exists {V : Type _} (st : MemoryStorage V) (state_id : String) :
    Bool :=
  (dget st.states state_id).isSome

/-- Embeds the public `MemoryStorage.cleanup_expired` (lines 108-120):
sweep and report how many records were removed. -/
def cleanup_expired {V : Type _} (st : MemoryStorage V) (now : Nat) :
    Nat × MemoryStorage V :=
  let before_count := st.states.length
  let st1 := sweep st now
  (before_count - st1.states.length, st1)

/-- Embeds `MemoryStorage.get_all_state_ids` (lines 122-129). -/
def get_all_state_ids {V : Type _} (st : MemoryStorage V) : List String :=
  st.states.map Prod.fst

theorem sweep_timeout {V : Type _} (st : MemoryStorage V) (now : Nat) :
    (sweep st now).timeout_seconds = st.timeout_seconds := by
  rw [sweep]
  generalize (st.timestamps.filter
      (fun p => decide (now - p.2 > st.timeout_seconds))).map Prod.fst = ids
  induction ids generalizing st with
  | nil => rfl
  | cons i ids ih => exact ih _

theorem foldl_delete_states {V : Type _} (ids : List String)
    (st : MemoryStorage V) :
    (ids.foldl delete_state st).states = ids.foldl ddel st.states := by
  induction ids generalizing st with
  | nil => rfl
  | cons i ids ih => exact ih _

theorem foldl_delete_timestamps {V : Type _} (ids : List String)
    (st : MemoryStorage V) :
    (ids.foldl delete_state st).timestamps = ids.foldl ddel st.timestamps := by
  induction ids generalizing st with
  | nil => rfl
  | cons i ids ih => exact ih _

theorem dget_foldl_ddel {α : Type _} (ids : List String)
    (l : List (String × α)) (k : String) :
    dget (ids.foldl ddel l) k = if k ∈ ids then none else dget l k := by
  induction ids generalizing l with
  | nil => simp
  | cons i ids ih =>
    rw [List.foldl_cons, ih, dget_ddel]
    by_cases hk : k ∈ ids
    · rw [if_pos hk, if_pos (List.mem_cons_of_mem _ hk)]
    · rw [if_neg hk]
      by_cases hki : k = i
      · rw [if_pos hki, if_pos (List.mem_cons.mpr (Or.inl hki))]
      · rw [if_neg hki, if_neg (fun h => (List.mem_cons.mp h).elim hki hk)]

/-- The ids removed by a sweep are exactly those having an over-age timestamp
entry. -/
theorem mem_sweep_ids {V : Type _} (st : MemoryStorage V) (now : Nat)
    (k : String) :
    (k ∈ (st.timestamps.filter
        (fun p => decide (now - p.2 > st.timeout_seconds))).map Prod.fst) ↔
      ∃ ts, (k, ts) ∈ st.timestamps ∧ now - ts > st.timeout_seconds := by
  constructor
  · intro h
    obtain ⟨p, hp, hpk⟩ := List.mem_map.mp h
    have := List.mem_filter.mp hp
    exact ⟨p.2, by rw [← hpk]; exact ⟨this.1, of_decide_eq_true this.2⟩⟩
  · rintro ⟨ts, hmem, hgt⟩
    exact List.mem_map.mpr ⟨(k, ts),
      List.mem_filter.mpr ⟨hmem, decide_eq_true hgt⟩, rfl⟩

/-- A sweep deletes every session owning an over-age timestamp entry. -/
theorem dget_sweep_states_of_expired {V : Type _} {st : MemoryStorage V}
    {now : Nat} {k : String} {ts : Nat} (hmem : (k, ts) ∈ st.timestamps)
    (hgt : now - ts > st.timeout_seconds) :
    dget (sweep st now).states k = none := by
  simp only [sweep]
  rw [foldl_delete_states, dget_foldl_ddel,
    if_pos ((mem_sweep_ids st now k).mpr ⟨ts, hmem, hgt⟩)]

/-- Sweeping never touches a session all of whose timestamp entries are within
the timeout. -/
theorem sweep_preserves_fresh {V : Type _} (st : MemoryStorage V) (now : Nat)
    (k : String)
    (h : ∀ p ∈ st.timestamps, p.1 = k → now - p.2 ≤ st.timeout_seconds) :
    dget (sweep st now).states k = dget st.states k ∧
      dget (sweep st now).timestamps k = dget st.timestamps k := by
  have hne : k ∉ (st.timestamps.filter
      (fun p => decide (now - p.2 > st.timeout_seconds))).map Prod.fst := by
    intro hm
    obtain ⟨ts, hmem, hgt⟩ := (mem_sweep_ids st now k).mp hm
    exact absurd (h (k, ts) hmem rfl) (not_le.mpr hgt)
  constructor
  · simp only [sweep]
    rw [foldl_delete_states, dget_foldl_ddel, if_neg hne]
  · simp only [sweep]
    rw [foldl_delete_timestamps, dget_foldl_ddel, if_neg hne]

/-- Once a session id is absent, it stays absent through any sweep. -/
theorem dget_sweep_states_of_none {V : Type _} {st : MemoryStorage V}
    {now : Nat} {k : String} (h : dget st.states k = none) :
    dget (sweep st now).states k = none := by
  simp only [sweep]
  rw [foldl_delete_states, dget_foldl_ddel]
  by_cases hm : k ∈ (st.timestamps.filter
      (fun p => decide (now - p.2 > st.timeout_seconds))).map Prod.fst
  · rw [if_pos hm]
  · rw [if_neg hm]
    exact h

end MemoryStorage

/-! ## FrameSegmenter (AudioProcessor.transcribe_streaming,
src/asr_api/audio_processor.py lines 136-200)

`pipeline.forward` is the external decoder collaborator and is passed in as a
function; `pipeline.CHUNK_SIZE` is the `chunk_size` argument.  Audio samples
are `Int` (the int32 values themselves are never arithmetic-relevant here). -/

/-- Frames handed to `pipeline.forward` by `AudioProcessor.transcribe_streaming`,
with the `is_last` flag of each call, following the source's three branches:
split (with right zero-padding to a multiple of `chunk_size`) when the audio
is longer than a chunk, right zero-pad when shorter, pass through when
exactly one chunk long. -/
def streaming_frames (audio : List Int) (chunk_size : Nat) :
    List (List Int × Bool) :=
  if audio.length > chunk_size then
    let audio1 :=
      if audio.length % chunk_size ≠ 0 then
        audio ++ List.replicate (chunk_size - audio.length % chunk_size) (0 : Int)
      else audio
    let num_chunks := audio1.length / chunk_size
    (List.range num_chunks).map
      (fun i => ((audio1.drop (i * chunk_size)).take chunk_size,
                 decide (i = num_chunks - 1)))
  else if audio.length < chunk_size then
    [(audio ++ List.replicate (chunk_size - audio.length) (0 : Int), false)]
  else
    [(audio, false)]

/-- Embeds `AudioProcessor.transcribe_streaming` (lines 154-200): the decoded
audio is split/padded exactly as in the source and threaded through `forward`,
accumulating the produced phrases with `all_phrases.extend`. -/
def transcribe_streaming {σ π : Type _}
    (forward : List Int → Option σ → Bool → List π × Option σ)
    (audio : List Int) (state : Option σ) (chunk_size : Nat) :
    List π × Option σ :=
  if audio.length > chunk_size then
    let audio1 :=
      if audio.length % chunk_size ≠ 0 then
        audio ++ List.replicate (chunk_size - audio.length % chunk_size) (0 : Int)
      else audio
    let num_chunks := audio1.length / chunk_size
    let audio_chunks := (List.range num_chunks).map
      (fun i => (audio1.drop (i * chunk_size)).take chunk_size)
    audio_chunks.enum.foldl
      (fun acc p =>
        let r := forward p.2 acc.2 (decide (p.1 = audio_chunks.length - 1))
        (acc.1 ++ r.1, r.2))
      ([], state)
  else if audio.length < chunk_size then
    let padded_audio :=
      audio ++ List.replicate (chunk_size - audio.length) (0 : Int)
    forward padded_audio state false
  else
    forward audio state false

theorem enum_map_range {α : Type _} (n : Nat) (c : Nat → α) :
    ((List.range n).map c).enum = (List.range n).map (fun i => (i, c i)) := by
  induction n with
  | zero => rfl
  | succ n ih =>
    rw [List.enum_eq_zip_range] at ih ⊢
    rw [List.length_map, List.length_range] at ih ⊢
    rw [List.range_succ, List.map_append, List.map_append,
      List.zip_append (by rw [List.length_map, List.length_range]), ih]
    rfl

/-- The foldl over enumerated chunks in `transcribe_streaming` is exactly a
foldl of the decoder over `streaming_frames`: the frame/flag list is the
faithful abstraction of the segmentation performed by the source. -/
theorem transcribe_streaming_eq_fold {σ π : Type _}
    (forward : List Int → Option σ → Bool → List π × Option σ)
    (audio : List Int) (state : Option σ) (chunk_size : Nat) :
    transcribe_streaming forward audio state chunk_size =
      (streaming_frames audio chunk_size).foldl
        (fun acc p =>
          let r := forward p.1 acc.2 p.2
          (acc.1 ++ r.1, r.2))
        ([], state) := by
  by_cases hgt : audio.length > chunk_size
  · simp only [transcribe_streaming, streaming_frames, if_pos hgt]
    rw [enum_map_range, List.foldl_map, List.foldl_map]
    rw [List.length_map, List.length_range]
  · by_cases hlt : audio.length < chunk_size
    · simp only [transcribe_streaming, streaming_frames, if_neg hgt, if_pos hlt,
        List.foldl_cons, List.foldl_nil]
      rcases forward (audio ++ List.replicate (chunk_size - audio.length) 0)
        state false with ⟨ph, st⟩
      rfl
    · simp only [transcribe_streaming, streaming_frames, if_neg hgt, if_neg hlt,
        List.foldl_cons, List.foldl_nil]
      rcases forward audio state false with ⟨ph, st⟩
      rfl

theorem flatten_chunks {α : Type _} (F : Nat) :
    ∀ (n : Nat) (l : List α), l.length = n * F →
      ((List.range n).map (fun i => (l.drop (i * F)).take F)).flatten = l := by
  intro n
  induction n with
  | zero =>
    intro l hl
    rw [Nat.zero_mul] at hl
    rw [List.length_eq_zero.mp hl]
    rfl
  | succ n ih =>
    intro l hl
    rw [List.range_succ_eq_map, List.map_cons, List.map_map, List.flatten_cons,
      Nat.zero_mul, List.drop_zero]
    have hmap : (List.range n).map
          ((fun i => (l.drop (i * F)).take F) ∘ Nat.succ) =
        (List.range n).map (fun i => ((l.drop F).drop (i * F)).take F) := by
      refine List.map_congr_left fun i _ => ?_
      show (l.drop (Nat.succ i * F)).take F = ((l.drop F).drop (i * F)).take F
      rw [List.drop_drop, Nat.succ_mul, Nat.add_comm]
    rw [hmap, ih (l.drop F) (by rw [List.length_drop, hl, Nat.succ_mul]; omega),
      List.take_append_drop]

theorem chunk_length {α : Type _} {F n i : Nat} {l : List α}
    (hl : l.length = n * F) (hi : i < n) :
    ((l.drop (i * F)).take F).length = F := by
  rw [List.length_take, List.length_drop, hl]
  have h1 : (i + 1) * F ≤ n * F := Nat.mul_le_mul_right F (Nat.succ_le_of_lt hi)
  rw [Nat.add_mul, Nat.one_mul] at h1
  omega

theorem map_range_last_flag (n : Nat) (hn : 1 ≤ n) :
    (List.range n).map (fun i => decide (i = n - 1)) =
      List.replicate (n - 1) false ++ [true] := by
  cases n with
  | zero => exact absurd hn (by omega)
  | succ m =>
    rw [List.range_succ, List.map_append, List.map_cons, List.map_nil,
      Nat.succ_sub_one]
    have hmap : (List.range m).map (fun i => decide (i = m)) =
        (List.range m).map (fun _ => false) := by
      refine List.map_congr_left fun i hi => ?_
      exact decide_eq_false (Nat.ne_of_lt (List.mem_range.mp hi))
    rw [hmap]
    have : (List.range m).map (fun _ => false) =
        List.replicate (List.range m).length false := List.map_const _ _
    rw [this, List.length_range, decide_eq_true (rfl : m = m)]

theorem padded_dvd (len F : Nat) (hF : 0 < F) :
    F ∣ len + (F - len % F) % F := by
  by_cases hr : len % F = 0
  · rw [hr, Nat.sub_zero, Nat.mod_self, Nat.add_zero]
    exact Nat.dvd_of_mod_eq_zero hr
  · have hrlt : len % F < F := Nat.mod_lt _ hF
    rw [Nat.mod_eq_of_lt (by omega : F - len % F < F)]
    have hdm := Nat.div_add_mod len F
    have heq : len + (F - len % F) = F * (len / F + 1) := by
      rw [Nat.mul_add, Nat.mul_one]
      omega
    rw [heq]
    exact Dvd.intro _ rfl

theorem padded_div (len F : Nat) (hF : 0 < F) :
    (len + (F - len % F) % F) / F = (len + F - 1) / F := by
  obtain ⟨q, r, hrF, hqr⟩ : ∃ q r, r < F ∧ len = q * F + r :=
    ⟨len / F, len % F, Nat.mod_lt _ hF, (Nat.div_add_mod' len F).symm⟩
  have hmod : len % F = r := by
    rw [hqr, Nat.add_comm (q * F) r, Nat.add_mul_mod_self_right,
      Nat.mod_eq_of_lt hrF]
  rw [hmod]
  by_cases hr : r = 0
  · rw [hr, Nat.sub_zero, Nat.mod_self, Nat.add_zero]
    have h1 : len + F - 1 = (F - 1) + q * F := by omega
    have hdiv : (F - 1) / F = 0 := Nat.div_eq_of_lt (by omega)
    have hlen2 : len = q * F := by omega
    rw [h1, Nat.add_mul_div_right _ _ hF, hdiv, Nat.zero_add, hlen2,
      Nat.mul_div_cancel _ hF]
  · rw [Nat.mod_eq_of_lt (by omega : F - r < F)]
    have hmul : (q + 1) * F = q * F + F := by ring
    have h1 : len + (F - r) = (q + 1) * F := by omega
    have h2 : len + F - 1 = (r - 1) + (q + 1) * F := by omega
    have hdiv : (r - 1) / F = 0 := Nat.div_eq_of_lt (by omega)
    rw [h1, h2, Nat.mul_div_cancel _ hF, Nat.add_mul_div_right _ _ hF,
      hdiv, Nat.zero_add]

/-- Normal form of the split branch of `streaming_frames`: when the audio is
longer than a chunk, the frames are the consecutive `chunk_size` slices of the
right-zero-padded audio, the last one flagged. -/
theorem streaming_frames_gt (S : List Int) (F : Nat) (hF : 0 < F)
    (hgt : S.length > F) :
    streaming_frames S F =
      (List.range ((S.length + (F - S.length % F) % F) / F)).map
        (fun i =>
          (((S ++ List.replicate ((F - S.length % F) % F) (0 : Int)).drop
              (i * F)).take F,
           decide (i = (S.length + (F - S.length % F) % F) / F - 1))) := by
  simp only [streaming_frames, if_pos hgt]
  by_cases hr : S.length % F = 0
  · rw [if_neg (fun h => h hr), hr, Nat.sub_zero, Nat.mod_self]
    simp
  · have hrlt : S.length % F < F := Nat.mod_lt _ hF
    rw [if_pos hr, Nat.mod_eq_of_lt (by omega : F - S.length % F < F)]
    rw [List.length_append, List.length_replicate]

theorem streaming_frames_gt_length (S : List Int) (F : Nat) (hF : 0 < F)
    (hgt : S.length > F) :
    (streaming_frames S F).length = (S.length + F - 1) / F := by
  rw [streaming_frames_gt S F hF hgt, List.length_map, List.length_range,
    padded_div _ _ hF]

theorem streaming_frames_gt_flatten (S : List Int) (F : Nat) (hF : 0 < F)
    (hgt : S.length > F) :
    ((streaming_frames S F).map Prod.fst).flatten =
      S ++ List.replicate ((F - S.length % F) % F) (0 : Int) := by
  rw [streaming_frames_gt S F hF hgt, List.map_map]
  exact flatten_chunks F _ _ (by
    rw [List.length_append, List.length_replicate,
      Nat.div_mul_cancel (padded_dvd S.length F hF)])

theorem streaming_frames_gt_frame_length (S : List Int) (F : Nat) (hF : 0 < F)
    (hgt : S.length > F) :
    ∀ fr ∈ streaming_frames S F, fr.1.length = F := by
  rw [streaming_frames_gt S F hF hgt]
  intro fr hfr
  obtain ⟨i, hi, rfl⟩ := List.mem_map.mp hfr
  exact chunk_length (by
      rw [List.length_append, List.length_replicate,
        Nat.div_mul_cancel (padded_dvd S.length F hF)])
    (List.mem_range.mp hi)

theorem streaming_frames_gt_flags (S : List Int) (F : Nat) (hF : 0 < F)
    (hgt : S.length > F) :
    (streaming_frames S F).map Prod.snd =
      List.replicate ((streaming_frames S F).length - 1) false ++ [true] := by
  have hn1 : 1 ≤ (S.length + (F - S.length % F) % F) / F :=
    (Nat.one_le_div_iff hF).mpr (by omega)
  rw [streaming_frames_gt S F hF hgt, List.map_map, List.length_map,
    List.length_range]
  exact map_range_last_flag _ hn1

/-- C1: for every decoded sample sequence `S` and decoder frame size `F > 0`,
`transcribe_streaming`'s segmentation behaves case-wise: one unpadded
non-final frame when `len S = F`; one zero-right-padded non-final frame when
`len S < F`; and when `len S > F`, right zero-padding to the next multiple of
`F` (none when already a multiple), a split into `ceil (len S / F)`
consecutive non-overlapping frames in order, with `isLast` true exactly on
the final frame. -/
theorem streaming_frames_spec_C1 (S : List Int) (F : Nat) (hF : 0 < F) :
    (S.length = F → streaming_frames S F = [(S, false)]) ∧
    (S.length < F →
      streaming_frames S F =
        [(S ++ List.replicate (F - S.length) (0 : Int), false)]) ∧
    (S.length > F →
      (streaming_frames S F).length = (S.length + F - 1) / F ∧
      ((streaming_frames S F).map Prod.fst).flatten =
        S ++ List.replicate ((F - S.length % F) % F) (0 : Int) ∧
      (∀ fr ∈ streaming_frames S F, fr.1.length = F) ∧
      (streaming_frames S F).map Prod.snd =
        List.replicate ((streaming_frames S F).length - 1) false ++ [true]) := by
  refine ⟨?_, ?_, ?_⟩
  · intro heq
    simp only [streaming_frames, if_neg (by omega : ¬S.length > F),
      if_neg (by omega : ¬S.length < F)]
  · intro hlt
    simp only [streaming_frames, if_neg (by omega : ¬S.length > F), if_pos hlt]
  · intro hgt
    exact ⟨streaming_frames_gt_length S F hF hgt,
      streaming_frames_gt_flatten S F hF hgt,
      streaming_frames_gt_frame_length S F hF hgt,
      streaming_frames_gt_flags S F hF hgt⟩

/-- Witness for C1, instantiating all three cases at concrete inputs. -/
theorem streaming_frames_spec_C1_witness :
    (streaming_frames [1, 2, 3] 2).length = 2 ∧
    ((streaming_frames [1, 2, 3] 2).map Prod.fst).flatten = [1, 2, 3, 0] ∧
    (streaming_frames [1, 2, 3] 2).map Prod.snd = [false, true] ∧
    streaming_frames [1, 1] 2 = [([1, 1], false)] ∧
    streaming_frames [5] 2 = [([5, 0], false)] := by
  obtain ⟨hc1, hc2, hc3⟩ := streaming_frames_spec_C1 [1, 2, 3] 2 (by decide)
  obtain ⟨h1, h2, -, h4⟩ := hc3 (by decide)
  refine ⟨by rw [h1]; rfl, by rw [h2]; rfl, ?_, ?_, ?_⟩
  · rw [h4, h1]
    rfl
  · exact (streaming_frames_spec_C1 [1, 1] 2 (by decide)).1 rfl
  · exact (streaming_frames_spec_C1 [5] 2 (by decide)).2.1 (by decide)

/-- C7: for every sample sequence `S` and frame size `F > 0`, concatenating
the frames produced by the segmentation and trimming the injected
zero-padding from the end reconstructs `S` itself. -/
theorem streaming_frames_spec_C7 (S : List Int) (F : Nat) (hF : 0 < F) :
    (((streaming_frames S F).map Prod.fst).flatten).take S.length = S := by
  rcases lt_trichotomy S.length F with hlt | heq | hgt
  · simp only [streaming_frames, if_neg (by omega : ¬S.length > F), if_pos hlt]
    rw [List.map_cons, List.map_nil, List.flatten_cons, List.flatten_nil,
      List.append_nil, List.take_left]
  · simp only [streaming_frames, if_neg (by omega : ¬S.length > F),
      if_neg (by omega : ¬S.length < F)]
    rw [List.map_cons, List.map_nil, List.flatten_cons, List.flatten_nil,
      List.append_nil, List.take_length]
  · rw [streaming_frames_gt_flatten S F hF hgt, List.take_left]

/-- Witness for C7 at a concrete input needing padding. -/
theorem streaming_frames_spec_C7_witness :
    (((streaming_frames [1, 2, 3] 2).map Prod.fst).flatten).take 3 =
      [1, 2, 3] :=
  streaming_frames_spec_C7 [1, 2, 3] 2 (by decide)

/-! ## RedisStorage (src/asr_api/storage/redis_storage.py)

Redis semantics at a single instant `now`: a key set by `SETEX k ttl v` is
stored together with its absolute expiry time `now + ttl`; a key whose expiry
time has passed behaves exactly like an absent key (`EXISTS` 0, `GET` nil,
`TTL` -2).  Pickling is the identity on the modelled value type.  The main
keyspace and the parallel `ts:`-prefixed timestamp keyspace are modelled as
two association lists keyed by session id; a stored entry is
`(value, expiresAt)`. -/

structure RedisStorage (V : Type _) where
  entries : List (String × (V × Nat))
  ts_entries : List (String × (Nat × Nat))
  timeout_seconds : Nat
  deriving DecidableEq

namespace RedisStorage

/-- Redis `GET` at time `now`: an expired entry is gone. -/
def redis_get {V : Type _} (st : RedisStorage V) (k : String) (now : Nat) :
    Option V :=
  match dget st.entries k with
  | some (v, e) => if now < e then some v else none
  | none => none

/-- Redis `EXISTS` at time `now`. -/
def redis_live {V : Type _} (st : RedisStorage V) (k : String) (now : Nat) :
    Bool :=
  match dget st.entries k with
  | some (_, e) => decide (now < e)
  | none => false

/-- Redis `TTL` at time `now`: remaining seconds for a live key, `-2` for an
absent (or expired, hence absent) key.  The `-1` no-expiry answer never arises
because every write in this storage goes through `SETEX`. -/
def redis_ttl {V : Type _} (st : RedisStorage V) (k : String) (now : Nat) :
    Int :=
  match dget st.entries k with
  | some (_, e) => if now < e then (e : Int) - (now : Int) else -2
  | none => -2

/-- Embeds `RedisStorage.create_state` (lines 71-92): `SETEX` of the pickled
`None`-like initial value and of the timestamp, both with the configured
timeout.  The fresh uuid is an explicit argument; the initial stored value is
an explicit argument `v0` (the pickled `None`). -/
def create_state {V : Type _} (st : RedisStorage V) (state_id : String)
    (v0 : V) (now : Nat) : String × RedisStorage V :=
  (state_id,
   { st with
     entries := dset st.entries state_id (v0, now + st.timeout_seconds),
     ts_entries :=
       dset st.ts_entries state_id (now, now + st.timeout_seconds) })

/-- Embeds `RedisStorage.get_state` (lines 94-108). -/
def get_state {V : Type _} (st : RedisStorage V) (state_id : String)
    (now : Nat) : Option V :=
  redis_get st state_id now

/-- Embeds `RedisStorage.update_state` (lines 110-139): `KeyError` (modelled
as `none`) when the key does not exist; otherwise read the remaining TTL and
rewrite value and timestamp preserving it, falling back to the full timeout
when the TTL report is non-positive. -/
def update_state {V : Type _} (st : RedisStorage V) (state_id : String)
    (state : V) (now : Nat) : Option (RedisStorage V) :=
  if ¬redis_live st state_id now then none
  else if redis_ttl st state_id now > 0 then
    some { st with
           entries := dset st.entries state_id
             (state, now + (redis_ttl st state_id now).toNat),
           ts_entries := dset st.ts_entries state_id
             (now, now + (redis_ttl st state_id now).toNat) }
  else
    some { st with
           entries :=
             dset st.entries state_id (state, now + st.timeout_seconds),
           ts_entries :=
             dset st.ts_entries state_id (now, now + st.timeout_seconds) }

/-- Embeds `RedisStorage.delete_state` (lines 141-150). -/
def delete_state {V : Type _} (st : RedisStorage V) (state_id : String) :
    RedisStorage V :=
  { st with entries := ddel st.entries state_id,
            ts_entries := ddel st.ts_entries state_id }

/-- Embeds `RedisStorage.state_exists` (lines 152-160). -/
def state_exists {V : Type _} (st : RedisStorage V) (state_id : String)
    (now : Nat) : Bool :=
  redis_live st state_id now

/-- Embeds `RedisStorage.cleanup_expired` (lines 162-171): a no-op returning
0, expiry being delegated to the backend TTL. -/
def cleanup_expired {V : Type _} (_st : RedisStorage V) : Nat := 0

/-- A live update preserves the entry's absolute expiry time: the remaining
TTL is read back and written unchanged. -/
theorem update_state_live {V : Type _} (st : RedisStorage V)
    (state_id : String) (state v0 : V) (now e : Nat)
    (hmem : dget st.entries state_id = some (v0, e)) (hlive : now < e) :
    update_state st state_id state now =
      some { st with
             entries := dset st.entries state_id (state, e),
             ts_entries := dset st.ts_entries state_id (now, e) } := by
  have hlv : redis_live st state_id now = true := by
    rw [redis_live, hmem]
    exact decide_eq_true hlive
  have httl : redis_ttl st state_id now = (e : Int) - (now : Int) := by
    rw [redis_ttl, hmem]
    exact if_pos hlive
  rw [update_state, if_neg (by rw [hlv]; simp), httl]
  rw [if_pos (by omega : (e : Int) - (now : Int) > 0)]
  have htn : ((e : Int) - (now : Int)).toNat = e - now := by omega
  rw [htn]
  have hen : now + (e - now) = e := by omega
  rw [hen]

/-- An update on a key whose TTL has elapsed (or that never existed) raises
`KeyError`: the expired key is simply absent to Redis. -/
theorem update_state_dead {V : Type _} (st : RedisStorage V)
    (state_id : String) (state : V) (now : Nat)
    (hdead : ∀ v e, dget st.entries state_id = some (v, e) → e ≤ now) :
    update_state st state_id state now = none := by
  have hlv : redis_live st state_id now = false := by
    rw [redis_live]
    cases hdg : dget st.entries state_id with
    | none => rfl
    | some ve =>
      exact decide_eq_false (not_lt.mpr (hdead ve.1 ve.2 (by rw [hdg])))
  rw [update_state, if_pos (by rw [hlv]; simp)]

end RedisStorage

namespace MemoryStorage

theorem dget_sweep_states_cases {V : Type _} (st : MemoryStorage V) (now : Nat)
    (k : String) :
    dget (sweep st now).states k = none ∨
      dget (sweep st now).states k = dget st.states k := by
  simp only [sweep]
  rw [foldl_delete_states, dget_foldl_ddel]
  by_cases hm : k ∈ (st.timestamps.filter
      (fun p => decide (now - p.2 > st.timeout_seconds))).map Prod.fst
  · left
    rw [if_pos hm]
  · right
    rw [if_neg hm]

end MemoryStorage

/-! ## StreamingService (src/asr_api/services/streaming_service.py)

The service is generic over the backing `StateStorage`; it is modelled here
over the in-memory backend (the default, and the one the claims cite).  The
decoder-facing `AudioService` methods are function parameters: `transcribe`
for `audio_service.transcribe_streaming` (already given the decoded chunk)
and `fin` for `audio_service.finalize_streaming`; a raising call is
`Except.error ()`.  `Phrase` carries the fields the service reads
(`text`, `start_time`, `end_time`); timestamps are a parameter type `τ`
compared only for equality. -/

structure Phrase (τ : Type _) where
  text : String
  start_time : τ
  end_time : τ
  deriving DecidableEq

/-- A value stored by the service in the state storage is either a Python
2-tuple `(pipeline_state, accumulated_phrases)` — `pair` — or any other
object — `raw` (the service stores only 2-tuples, but the unpacking code at
lines 59-65 and 96-102 also handles arbitrary stored values). -/
inductive StoredData (D P : Type _) where
  | pair (state : Option D) (phrases : List P)
  | raw (value : D)
  deriving DecidableEq

/-- Exceptions surfaced by the streaming service: `StateNotFoundError`,
a propagated decoder exception, and a propagated `KeyError` from the
storage's `update_state`. -/
inductive ServiceError where
  | stateNotFound
  | decoderFailure
  | keyError
  deriving DecidableEq

/-- Embeds the stored-data unpacking done identically at
streaming_service.py lines 59-65 (`process_chunk`) and 96-102
(`finalize_session`): `None` and a 2-tuple unpack to the fresh/unpacked
state, any other value becomes the pipeline state with no phrases. -/
def parse_stored {D P : Type _} : Option (StoredData D P) → Option D × List P
  | none => (none, [])
  | some (StoredData.pair s ph) => (s, ph)
  | some (StoredData.raw d) => (some d, [])

namespace StreamingService

/-- Embeds `StreamingService.process_chunk` (lines 39-78): existence check,
read, decode, append the new phrases and commit via `update_state`.
`transcribe` stands for `self.audio_service.transcribe_streaming` applied to
the audio chunk. -/
def process_chunk {D τ : Type _} [DecidableEq τ]
    (st : MemoryStorage (StoredData D (Phrase τ))) (state_id : String)
    (now : Nat)
    (transcribe : Option D → Except Unit (List (Phrase τ) × D)) :
    Except ServiceError (List (Phrase τ)) ×
      MemoryStorage (StoredData D (Phrase τ)) :=
  if ¬MemoryStorage.state_exists st state_id then
    (Except.error ServiceError.stateNotFound, st)
  else
    let r := MemoryStorage.get_state st state_id now
    let pa := parse_stored r.1
    match transcribe pa.1 with
    | Except.error _ => (Except.error ServiceError.decoderFailure, r.2)
    | Except.ok (new_phrases, new_state) =>
      match MemoryStorage.update_state r.2 state_id
          (some (StoredData.pair (some new_state) (pa.2 ++ new_phrases)))
          now with
      | some st2 => (Except.ok new_phrases, st2)
      | none => (Except.error ServiceError.keyError, r.2)

/-- Embeds `StreamingService.finalize_session` (lines 80-123): existence
check, read, decoder finalize, dedup of the trailing phrases against the
accumulated ones by exact `(start_time, end_time)` pair, concatenation and
deletion.  The Python key set is modelled as the key list with membership. -/
def finalize_session {D τ : Type _} [DecidableEq τ]
    (st : MemoryStorage (StoredData D (Phrase τ))) (state_id : String)
    (now : Nat)
    (fin : Option D → Except Unit (List (Phrase τ))) :
    Except ServiceError (List (Phrase τ)) ×
      MemoryStorage (StoredData D (Phrase τ)) :=
  if ¬MemoryStorage.state_exists st state_id then
    (Except.error ServiceError.stateNotFound, st)
  else
    let r := MemoryStorage.get_state st state_id now
    let pa := parse_stored r.1
    match fin pa.1 with
    | Except.error _ => (Except.error ServiceError.decoderFailure, r.2)
    | Except.ok final_phrases =>
      let accumulated_keys := pa.2.map (fun p => (p.start_time, p.end_time))
      let unique_final_phrases := final_phrases.filter
        (fun p => decide ((p.start_time, p.end_time) ∉ accumulated_keys))
      (Except.ok (pa.2 ++ unique_final_phrases),
       MemoryStorage.delete_state r.2 state_id)

end StreamingService

/-- Embeds the `finalize_streaming` endpoint
(src/asr_api/routers/streaming.py lines 105-141): the service call, then the
`finally` block that deletes the state if it still exists — also on the
exception paths.  The HTTP response encoding is omitted; the endpoint's
result value is the service result. -/
def finalize_streaming {D τ : Type _} [DecidableEq τ]
    (st : MemoryStorage (StoredData D (Phrase τ))) (state_id : String)
    (now : Nat)
    (fin : Option D → Except Unit (List (Phrase τ))) :
    Except ServiceError (List (Phrase τ)) ×
      MemoryStorage (StoredData D (Phrase τ)) :=
  ((StreamingService.finalize_session st state_id now fin).1,
   if MemoryStorage.state_exists
       (StreamingService.finalize_session st state_id now fin).2 state_id then
     MemoryStorage.delete_state
       (StreamingService.finalize_session st state_id now fin).2 state_id
   else (StreamingService.finalize_session st state_id now fin).2)

/-- C3 counterexample: a session created at time 0 with timeout 10 is expired
at time 20, yet `state_exists` — which performs no expiry check and no
cleanup — still reports it as present when no sweep has run in between. -/
theorem state_exists_spec_C3_counterexample :
    (20 : Nat) - 0 > (10 : Nat) ∧
    MemoryStorage.state_exists
      (⟨[("s", none)], [("s", 0)], 10⟩ : MemoryStorage Unit) "s" = true :=
  ⟨by decide, by decide⟩

/-- C3 (amended): a session whose last touch is older than the configured
timeout is reported as not found by `get_state` even without an explicit
sweep call (its internal lazy sweep removes the record), and after that
internal sweep `state_exists` reports it as not found too; `state_exists`
alone performs no expiry check. -/
theorem expired_session_spec_C3 {V : Type _} (st : MemoryStorage V)
    (state_id : String) (now ts : Nat)
    (hts : dget st.timestamps state_id = some ts)
    (hexp : now - ts > st.timeout_seconds) :
    (MemoryStorage.get_state st state_id now).1 = none ∧
    MemoryStorage.state_exists
      (MemoryStorage.get_state st state_id now).2 state_id = false := by
  have hnone : dget (MemoryStorage.sweep st now).states state_id = none :=
    MemoryStorage.dget_sweep_states_of_expired (mem_of_dget_eq_some hts) hexp
  constructor
  · simp only [MemoryStorage.get_state]
    rw [hnone]
    rfl
  · simp only [MemoryStorage.get_state, MemoryStorage.state_exists]
    rw [hnone]
    rfl

/-- Witness for C3 (amended) at the counterexample's store. -/
theorem expired_session_spec_C3_witness :
    (MemoryStorage.get_state
      (⟨[("s", none)], [("s", 0)], 10⟩ : MemoryStorage Unit) "s" 20).1 =
        none ∧
    MemoryStorage.state_exists
      (MemoryStorage.get_state
        (⟨[("s", none)], [("s", 0)], 10⟩ : MemoryStorage Unit) "s" 20).2
      "s" = false :=
  expired_session_spec_C3 _ "s" 20 0 (by decide) (by decide)

/-- C10 counterexample: a stored value that is neither `None` nor a 2-tuple
is not treated as the fresh state `(null, [])` — it becomes the decoder
state itself, with an empty phrase list. -/
theorem stored_raw_spec_C10_counterexample :
    parse_stored (some (StoredData.raw (5 : Nat)) :
        Option (StoredData Nat (Phrase Int))) = (some 5, []) ∧
    parse_stored (some (StoredData.raw (5 : Nat)) :
        Option (StoredData Nat (Phrase Int))) ≠
      ((none, []) : Option Nat × List (Phrase Int)) :=
  ⟨rfl, by decide⟩

/-- C10 (amended): the store-level read cannot distinguish a freshly created
session (stored value `None`) from an absent or expired id — both yield
`None` — and the service's unpacking compensates by treating a read `None`
as the fresh state (null decoder state, empty phrase list); a non-2-tuple
stored value is instead treated as the decoder state itself with an empty
phrase list. -/
theorem stored_none_spec_C10 {V D P : Type _} (st : MemoryStorage V)
    (state_id : String) (now : Nat) (d : D) :
    (dget st.states state_id = some none →
      (MemoryStorage.get_state st state_id now).1 = none) ∧
    (dget st.states state_id = none →
      (MemoryStorage.get_state st state_id now).1 = none) ∧
    parse_stored (none : Option (StoredData D P)) = (none, []) ∧
    parse_stored (some (StoredData.raw d) : Option (StoredData D P)) =
      (some d, []) := by
  refine ⟨?_, ?_, rfl, rfl⟩
  · intro h
    simp only [MemoryStorage.get_state]
    rcases MemoryStorage.dget_sweep_states_cases st now state_id with hc | hc
    · rw [hc]
      rfl
    · rw [hc, h]
      rfl
  · intro h
    simp only [MemoryStorage.get_state]
    rw [MemoryStorage.dget_sweep_states_of_none h]
    rfl

/-- Witness for C10 (amended): a freshly created session and an absent id
read the same, and the unpacking of both `None` and a raw value. -/
theorem stored_none_spec_C10_witness :
    (MemoryStorage.get_state
      (⟨[("s", none)], [("s", 0)], 60⟩ :
        MemoryStorage (StoredData Unit (Phrase Int))) "s" 0).1 = none ∧
    (MemoryStorage.get_state
      (⟨[("s", none)], [("s", 0)], 60⟩ :
        MemoryStorage (StoredData Unit (Phrase Int))) "absent" 0).1 = none ∧
    parse_stored (some (StoredData.raw ()) :
      Option (StoredData Unit (Phrase Int))) = (some (), []) :=
  by
  have h := @stored_none_spec_C10 (StoredData Unit (Phrase Int)) Unit
    (Phrase Int) ⟨[("s", none)], [("s", 0)], 60⟩ "s" 0 ()
  have h2 := @stored_none_spec_C10 (StoredData Unit (Phrase Int)) Unit
    (Phrase Int) ⟨[("s", none)], [("s", 0)], 60⟩ "absent" 0 ()
  exact ⟨h.1 (by decide), h2.2.1 (by decide), h.2.2.2⟩

/-- C4 counterexample: on the Redis backend, an update at time 99 of a
session whose key expires at time 100 preserves the remaining TTL of 1
second instead of resetting it to the full timeout of 3600, so the session
is already gone at time 101 — it does not remain alive past its original
deadline. -/
theorem update_state_spec_C4_counterexample :
    RedisStorage.update_state
      (⟨[("s", (7, 100))], [], 3600⟩ : RedisStorage Nat) "s" 9 99 =
      some (⟨[("s", (9, 100))], [("s", (99, 100))], 3600⟩ :
        RedisStorage Nat) ∧
    RedisStorage.state_exists
      (⟨[("s", (9, 100))], [("s", (99, 100))], 3600⟩ : RedisStorage Nat)
      "s" 101 = false :=
  ⟨by decide, by decide⟩

/-- C4 (amended): on the memory backend a successful `update_state` replaces
the payload and refreshes `lastTouchedAt` to the update time, so the session
survives any sweep within a full timeout of the update — in particular past
its original deadline; on the Redis backend a live update rewrites the value
but preserves the remaining TTL (the absolute expiry time is unchanged, not
extended).  On both backends an update of a nonexistent id fails with
`KeyError`. -/
theorem update_state_spec_C4 {V W : Type _} (st : MemoryStorage V)
    (stR : RedisStorage W) (state_id : String) (v : Option V) (vr v0 : W)
    (now e : Nat) :
    ((dget st.states state_id).isSome →
     (dget st.timestamps state_id).isSome →
      ∃ st1, MemoryStorage.update_state st state_id v now = some st1 ∧
        dget st1.states state_id = some v ∧
        dget st1.timestamps state_id = some now ∧
        ∀ t, t - now ≤ st.timeout_seconds →
          dget (MemoryStorage.sweep st1 t).states state_id = some v) ∧
    (dget st.states state_id = none →
      MemoryStorage.update_state st state_id v now = none) ∧
    (dget stR.entries state_id = some (v0, e) → now < e →
      ∃ st1, RedisStorage.update_state stR state_id vr now = some st1 ∧
        dget st1.entries state_id = some (vr, e)) ∧
    ((∀ w f, dget stR.entries state_id = some (w, f) → f ≤ now) →
      RedisStorage.update_state stR state_id vr now = none) := by
  refine ⟨?_, ?_, ?_, ?_⟩
  · intro hs ht
    rw [MemoryStorage.update_state, if_pos hs, if_pos ht]
    refine ⟨_, rfl, dget_dset_self _ _ _, dget_dset_self _ _ _, ?_⟩
    intro t htle
    have hfresh := MemoryStorage.sweep_preserves_fresh
      { st with states := dset st.states state_id v,
                timestamps := dset st.timestamps state_id now } t state_id
      (fun p hp hpk => by rw [mem_dset hp hpk]; exact htle)
    rw [hfresh.1]
    exact dget_dset_self _ _ _
  · intro h
    rw [MemoryStorage.update_state, if_neg (by rw [h]; simp)]
  · intro hmem hlive
    exact ⟨_, RedisStorage.update_state_live stR state_id vr v0 now e
      hmem hlive, dget_dset_self _ _ _⟩
  · intro hdead
    exact RedisStorage.update_state_dead stR state_id vr now hdead

/-- Witness for C4 (amended): the memory update at time 9 keeps a session
created at time 0 with timeout 10 alive at time 15 (past its original
deadline 10); a missing id fails; the Redis live update preserves the expiry
time 100; a Redis update at the expiry time fails. -/
theorem update_state_spec_C4_witness :
    (∃ st1, MemoryStorage.update_state
        (⟨[("s", some ())], [("s", 0)], 10⟩ : MemoryStorage Unit) "s"
        (some ()) 9 = some st1 ∧
      dget st1.timestamps "s" = some 9 ∧
      dget (MemoryStorage.sweep st1 15).states "s" = some (some ())) ∧
    MemoryStorage.update_state (⟨[], [], 10⟩ : MemoryStorage Unit) "s"
      (some ()) 9 = none ∧
    (∃ st1, RedisStorage.update_state
        (⟨[("s", ((), 100))], [], 3600⟩ : RedisStorage Unit) "s" () 50 =
        some st1 ∧ dget st1.entries "s" = some ((), 100)) ∧
    RedisStorage.update_state
      (⟨[("s", ((), 100))], [], 3600⟩ : RedisStorage Unit) "s" () 100 =
      none := by
  refine ⟨?_, ?_, ?_, ?_⟩
  · obtain ⟨st1, h1, h2, h3, h4⟩ :=
      (update_state_spec_C4 (⟨[("s", some ())], [("s", 0)], 10⟩ :
          MemoryStorage Unit) (⟨[], [], 0⟩ : RedisStorage Unit) "s"
        (some ()) () () 9 0).1 (by decide) (by decide)
    exact ⟨st1, h1, h3, h4 15 (by decide)⟩
  · exact (update_state_spec_C4 (⟨[], [], 10⟩ : MemoryStorage Unit)
      (⟨[], [], 0⟩ : RedisStorage Unit) "s" (some ()) () () 9 0).2.1
      (by decide)
  · exact (update_state_spec_C4 (⟨[], [], 0⟩ : MemoryStorage Unit)
      (⟨[("s", ((), 100))], [], 3600⟩ : RedisStorage Unit) "s" none () ()
      50 100).2.2.1 (by decide) (by decide)
  · refine (update_state_spec_C4 (⟨[], [], 0⟩ : MemoryStorage Unit)
      (⟨[("s", ((), 100))], [], 3600⟩ : RedisStorage Unit) "s" none () ()
      100 100).2.2.2 ?_
    intro w f hwf
    simp [dget] at hwf
    omega

/-- C8: on the Redis backend, an update of a key whose TTL has already
elapsed — or that never existed — raises `KeyError` (the expired key is
absent to Redis) and never silently resurrects the session; a still-live
update rewrites the value while preserving the remaining TTL (the absolute
expiry time is unchanged). -/
theorem redis_update_spec_C8 {V : Type _} (st : RedisStorage V)
    (state_id : String) (v v0 : V) (now e : Nat) :
    (dget st.entries state_id = some (v0, e) → e ≤ now →
      RedisStorage.update_state st state_id v now = none) ∧
    (dget st.entries state_id = none →
      RedisStorage.update_state st state_id v now = none) ∧
    (dget st.entries state_id = some (v0, e) → now < e →
      ∃ st1, RedisStorage.update_state st state_id v now = some st1 ∧
        dget st1.entries state_id = some (v, e) ∧
        RedisStorage.state_exists st1 state_id now = true) := by
  refine ⟨?_, ?_, ?_⟩
  · intro hmem he
    refine RedisStorage.update_state_dead st state_id v now ?_
    intro w f hwf
    rw [hmem] at hwf
    injection hwf with hp
    cases hp
    exact he
  · intro hnone
    refine RedisStorage.update_state_dead st state_id v now ?_
    intro w f hwf
    rw [hnone] at hwf
    exact absurd hwf (by simp)
  · intro hmem hlive
    refine ⟨_, RedisStorage.update_state_live st state_id v v0 now e
      hmem hlive, dget_dset_self _ _ _, ?_⟩
    rw [RedisStorage.state_exists, RedisStorage.redis_live,
      dget_dset_self]
    exact decide_eq_true hlive

/-- Witness for C8 at concrete stores: elapsed key, absent key, live key. -/
theorem redis_update_spec_C8_witness :
    RedisStorage.update_state
      (⟨[("s", (7, 100))], [], 3600⟩ : RedisStorage Nat) "s" 9 100 = none ∧
    RedisStorage.update_state
      (⟨[], [], 3600⟩ : RedisStorage Nat) "s" 9 0 = none ∧
    (∃ st1, RedisStorage.update_state
        (⟨[("s", (7, 100))], [], 3600⟩ : RedisStorage Nat) "s" 9 50 =
        some st1 ∧ dget st1.entries "s" = some (9, 100)) := by
  refine ⟨?_, ?_, ?_⟩
  · exact (redis_update_spec_C8 (⟨[("s", (7, 100))], [], 3600⟩ :
      RedisStorage Nat) "s" 9 7 100 100).1 (by decide) (by decide)
  · exact (redis_update_spec_C8 (⟨[], [], 3600⟩ : RedisStorage Nat) "s" 9 9
      0 0).2.1 (by decide)
  · obtain ⟨st1, h1, h2, -⟩ := (redis_update_spec_C8
      (⟨[("s", (7, 100))], [], 3600⟩ : RedisStorage Nat) "s" 9 7 50
      100).2.2 (by decide) (by decide)
    exact ⟨st1, h1, h2⟩

/-- C2: for every finalize call on an existing session whose stored record
holds accumulated phrases `A`, when the decoder's finalize returns trailing
phrases `T` the returned list is `A` followed by exactly those phrases of
`T` (in order) whose `(start_time, end_time)` pair equals no pair of `A`. -/
theorem finalize_session_spec_C2 {D τ : Type _} [DecidableEq τ]
    (st : MemoryStorage (StoredData D (Phrase τ))) (state_id : String)
    (now : Nat) (fin : Option D → Except Unit (List (Phrase τ)))
    (ds : Option D) (A T : List (Phrase τ))
    (hex : MemoryStorage.state_exists st state_id = true)
    (hget : (MemoryStorage.get_state st state_id now).1 =
      some (StoredData.pair ds A))
    (hfin : fin ds = Except.ok T) :
    (StreamingService.finalize_session st state_id now fin).1 =
      Except.ok (A ++ T.filter
        (fun p => decide ((p.start_time, p.end_time) ∉
          A.map (fun q => (q.start_time, q.end_time))))) := by
  rw [StreamingService.finalize_session]
  rw [if_neg (by rw [hex]; simp)]
  simp only [hget, parse_stored, hfin]

/-- Witness for C2: the spec's worked example — accumulated
`[("a",0,1), ("b",1,2)]`, trailing `[("b",1,2), ("c",2,3)]`, result
`[("a",0,1), ("b",1,2), ("c",2,3)]` with no duplicated `"b"`. -/
theorem finalize_session_spec_C2_witness :
    (StreamingService.finalize_session
      (⟨[("s", some (StoredData.pair none
          [⟨"a", (0 : ℚ), 1⟩, ⟨"b", 1, 2⟩]))], [("s", 0)], 100⟩ :
        MemoryStorage (StoredData Unit (Phrase ℚ)))
      "s" 0
      (fun _ => Except.ok [⟨"b", 1, 2⟩, ⟨"c", 2, 3⟩])).1 =
      Except.ok [⟨"a", 0, 1⟩, ⟨"b", 1, 2⟩, ⟨"c", 2, 3⟩] := by
  rw [finalize_session_spec_C2 _ "s" 0 _ none
    [⟨"a", (0 : ℚ), 1⟩, ⟨"b", 1, 2⟩] [⟨"b", 1, 2⟩, ⟨"c", 2, 3⟩]
    (by decide) (by decide) rfl]
  rfl

/-- C5: for every finalize call on an existing session, the session is gone
from the store by the end of the endpoint — whether the decoder's finalize
succeeded (the service deletes it) or raised (the endpoint's `finally`
block deletes it): afterwards the id neither exists nor resolves. -/
theorem finalize_streaming_spec_C5 {D τ : Type _} [DecidableEq τ]
    (st : MemoryStorage (StoredData D (Phrase τ))) (state_id : String)
    (now : Nat) (fin : Option D → Except Unit (List (Phrase τ)))
    (hex : MemoryStorage.state_exists st state_id = true) :
    MemoryStorage.state_exists
      (finalize_streaming st state_id now fin).2 state_id = false ∧
    ∀ t, (MemoryStorage.get_state
      (finalize_streaming st state_id now fin).2 state_id t).1 = none := by
  have hroot : dget (finalize_streaming st state_id now fin).2.states
      state_id = none := by
    cases hx : MemoryStorage.state_exists
        (StreamingService.finalize_session st state_id now fin).2
        state_id with
    | true =>
      simp [finalize_streaming, hx, MemoryStorage.delete_state, dget_ddel]
    | false =>
      have hn : dget (StreamingService.finalize_session st state_id now
          fin).2.states state_id = none := by
        cases h2 : dget (StreamingService.finalize_session st state_id now
            fin).2.states state_id with
        | none => rfl
        | some v =>
          rw [MemoryStorage.state_exists, h2] at hx
          simp at hx
      simp [finalize_streaming, hx, hn]
  refine ⟨?_, ?_⟩
  · rw [MemoryStorage.state_exists, hroot]
    rfl
  · intro t
    simp only [MemoryStorage.get_state]
    rw [MemoryStorage.dget_sweep_states_of_none hroot]
    rfl

/-- Witness for C5 with a decoder whose finalize raises: the endpoint's
cleanup still removes the session. -/
theorem finalize_streaming_spec_C5_witness :
    MemoryStorage.state_exists
      (finalize_streaming
        (⟨[("s", some (StoredData.pair none []))], [("s", 0)], 10⟩ :
          MemoryStorage (StoredData Unit (Phrase Int)))
        "s" 0 (fun _ => Except.error ())).2 "s" = false ∧
    (MemoryStorage.get_state
      (finalize_streaming
        (⟨[("s", some (StoredData.pair none []))], [("s", 0)], 10⟩ :
          MemoryStorage (StoredData Unit (Phrase Int)))
        "s" 0 (fun _ => Except.error ())).2 "s" 5).1 = none := by
  have h := finalize_streaming_spec_C5
    (⟨[("s", some (StoredData.pair none []))], [("s", 0)], 10⟩ :
      MemoryStorage (StoredData Unit (Phrase Int)))
    "s" 0 (fun _ => Except.error ()) (by decide)
  exact ⟨h.1, h.2 5⟩

/-- C6 counterexample: a `process_chunk` call on a session that is already
past its timeout but not yet swept, with a raising decoder, fails with the
decoder error yet removes the stored record (the lazy expiry sweep inside
`get_state` deleted it), so the record is not exactly what it was before
the failing call. -/
theorem process_chunk_spec_C6_counterexample :
    (StreamingService.process_chunk
      (⟨[("s", some (StoredData.pair none []))], [("s", 0)], 10⟩ :
        MemoryStorage (StoredData Unit (Phrase Int)))
      "s" 20 (fun _ => Except.error ())).1 =
      Except.error ServiceError.decoderFailure ∧
    dget (StreamingService.process_chunk
      (⟨[("s", some (StoredData.pair none []))], [("s", 0)], 10⟩ :
        MemoryStorage (StoredData Unit (Phrase Int)))
      "s" 20 (fun _ => Except.error ())).2.states "s" = none ∧
    dget (⟨[("s", some (StoredData.pair none []))], [("s", 0)], 10⟩ :
      MemoryStorage (StoredData Unit (Phrase Int))).states "s" =
      some (some (StoredData.pair none [])) :=
  ⟨rfl, rfl, rfl⟩

/-- C6 (amended): a failing `process_chunk` commits no partial update: a
not-found failure returns with the store completely untouched, and a decoder
failure on a session that has not passed its timeout leaves that session's
stored record and timestamp exactly as they were (the only store change a
failing call can make is the lazy expiry sweep `get_state` performs, which
can remove sessions already past their timeout). -/
theorem process_chunk_spec_C6 {D τ : Type _} [DecidableEq τ]
    (st : MemoryStorage (StoredData D (Phrase τ))) (state_id : String)
    (now : Nat)
    (transcribe : Option D → Except Unit (List (Phrase τ) × D)) :
    (MemoryStorage.state_exists st state_id = false →
      StreamingService.process_chunk st state_id now transcribe =
        (Except.error ServiceError.stateNotFound, st)) ∧
    (MemoryStorage.state_exists st state_id = true →
     (∀ p ∈ st.timestamps, p.1 = state_id →
        now - p.2 ≤ st.timeout_seconds) →
     transcribe (parse_stored
        (MemoryStorage.get_state st state_id now).1).1 = Except.error () →
      (StreamingService.process_chunk st state_id now transcribe).1 =
        Except.error ServiceError.decoderFailure ∧
      dget (StreamingService.process_chunk st state_id now
        transcribe).2.states state_id = dget st.states state_id ∧
      dget (StreamingService.process_chunk st state_id now
        transcribe).2.timestamps state_id =
        dget st.timestamps state_id) := by
  constructor
  · intro h
    rw [StreamingService.process_chunk, if_pos (by rw [h]; simp)]
  · intro hex hfresh htr
    have hfs := MemoryStorage.sweep_preserves_fresh st now state_id hfresh
    have hpc : StreamingService.process_chunk st state_id now transcribe =
        (Except.error ServiceError.decoderFailure,
         (MemoryStorage.get_state st state_id now).2) := by
      rw [StreamingService.process_chunk, if_neg (by rw [hex]; simp)]
      simp only [htr]
    rw [hpc]
    exact ⟨rfl, by simp only [MemoryStorage.get_state]; exact hfs.1,
      by simp only [MemoryStorage.get_state]; exact hfs.2⟩

/-- Witness for C6 (amended): a not-found failure leaves the store equal to
what it was, and a decoder failure on a live session leaves its record and
timestamp unchanged. -/
theorem process_chunk_spec_C6_witness :
    StreamingService.process_chunk
      (⟨[], [], 10⟩ : MemoryStorage (StoredData Unit (Phrase Int))) "s" 0
      (fun _ => Except.error ()) =
      (Except.error ServiceError.stateNotFound, ⟨[], [], 10⟩) ∧
    (StreamingService.process_chunk
      (⟨[("s", some (StoredData.pair none []))], [("s", 0)], 10⟩ :
        MemoryStorage (StoredData Unit (Phrase Int)))
      "s" 5 (fun _ => Except.error ())).1 =
      Except.error ServiceError.decoderFailure ∧
    dget (StreamingService.process_chunk
      (⟨[("s", some (StoredData.pair none []))], [("s", 0)], 10⟩ :
        MemoryStorage (StoredData Unit (Phrase Int)))
      "s" 5 (fun _ => Except.error ())).2.states "s" =
      some (some (StoredData.pair none [])) := by
  refine ⟨?_, ?_, ?_⟩
  · exact (process_chunk_spec_C6
      (⟨[], [], 10⟩ : MemoryStorage (StoredData Unit (Phrase Int))) "s" 0
      (fun _ => Except.error ())).1 (by decide)
  · exact ((process_chunk_spec_C6
      (⟨[("s", some (StoredData.pair none []))], [("s", 0)], 10⟩ :
        MemoryStorage (StoredData Unit (Phrase Int))) "s" 5
      (fun _ => Except.error ())).2 (by decide) (by decide) rfl).1
  · have h := ((process_chunk_spec_C6
      (⟨[("s", some (StoredData.pair none []))], [("s", 0)], 10⟩ :
        MemoryStorage (StoredData Unit (Phrase Int))) "s" 5
      (fun _ => Except.error ())).2 (by decide) (by decide) rfl).2.1
    rw [h]
    rfl
